import Mathlib

/-!
# Verification of the pushbutton load-control loop

Shallow embedding of `src/Pushbutton_Switch.ino` (the `loop()` control
routine and its global state).  The sketch debounces a momentary pushbutton,
and on each debounced release either turns the load on, turns it off (short
press), or advances a cyclic PWM duty index (long press).

Modelling decisions, all taken directly from the source:

* `unsigned long` is 32 bits on the target; `millis()` differences are
  computed modulo `2 ^ 32` (`msub`), and every stored timestamp is reduced
  modulo `2 ^ 32` exactly where the C code's wrapping assignments occur.
* One iteration of `loop()` samples the pin once and reads the clock once;
  the model's `step` takes the tick's clock value `now` and raw sample `raw`.
  (The C code calls `millis()` several times inside one iteration; the calls
  are microseconds apart and the sketch treats them as the same instant.)
* `HIGH` is modelled as `true`.  The button idles `HIGH` (pull-up), pressed
  is `LOW`.  The relay trigger pin `pinL` is `HIGH` (`true`) when the relay
  is triggered, which *disconnects* the load; the load is on when `pinL` is
  `LOW` (`false`).  Arduino output pins reset to `LOW`, and `setup()` never
  writes `pinL`, so at the end of `setup()` the load is connected (on) —
  `setup()` indeed prints "Load is on at 255 duty."
* Serial logging and the line-wrap column counter `col` are pure
  observational output with no feedback into the control state; they are
  not modelled.  Debounced transitions are modelled as explicit events
  carrying the committed level and the recorded timestamp.
-/

/-- Modulus of the 32-bit `unsigned long` used for all times. -/
def W : Nat := 2 ^ 32

/-- Wrapping subtraction `a - b` on 32-bit unsigned values, the meaning of
`millis() - t` in the sketch. -/
def msub (a b : Nat) : Nat := (a + W - b % W) % W

/-- `const unsigned long debounceDelay = 50;` -/
def debounceDelay : Nat := 50

/-- `const unsigned long shortLong = 500;` -/
def shortLong : Nat := 500

/-- `const byte duty[] = {255, 46, 1, 46};` -/
def duty : List Nat := [255, 46, 1, 46]

/-- `const byte dutyS = 4;` -/
def dutyS : Nat := 4

/-- Array access `duty[i]`. -/
def dutyGet (i : Nat) : Nat := duty.getD i 0

/-- `dutyI = (dutyI + 1) % dutyS;` — the long-press duty advance. -/
def advanceDuty (i : Nat) : Nat := (i + 1) % dutyS

/-- The mutable globals of the sketch together with the two output pins. -/
structure SwState where
  /-- `byte buttonState` — raw button state being tracked (HIGH = `true`). -/
  buttonState : Bool
  /-- `byte buttonProcessed` — debounced button state. -/
  buttonProcessed : Bool
  /-- `unsigned long lastChange` — time of the last raw change. -/
  lastChange : Nat
  /-- `unsigned long buttonTime` — time of the last debounced change. -/
  buttonTime : Nat
  /-- `byte dutyI` — index into the `duty` array. -/
  dutyI : Nat
  /-- Output latch of the relay trigger pin `pinL` (HIGH = load off). -/
  pinL : Bool
  /-- PWM value last written to `pinD` by `analogWrite`. -/
  pinD : Nat
deriving Repr, DecidableEq

/-- A debounced transition event: the committed level (`true` = button up)
and the timestamp recorded for it (`buttonTime`, i.e. the raw-change time). -/
structure Ev where
  level : Bool
  time : Nat
deriving Repr, DecidableEq

/-- The load is on exactly when the relay trigger is LOW. -/
def loadOn (s : SwState) : Bool := !s.pinL

/-- The quantity `millis() - buttonTime` that line 123 of the sketch compares
against `shortLong` to classify a release. -/
def heldDuration (s : SwState) (now : Nat) : Nat := msub now s.buttonTime

/-- State at the end of `setup()`: globals at their initialisers
(`buttonState = buttonProcessed = HIGH`, both times `0`, `dutyI = 0`),
relay pin at its reset default `LOW` (load on), and PWM at `duty[0]`
from the `analogWrite(pinD, duty[dutyI])` in `setup()`. -/
def init : SwState :=
  { buttonState := true, buttonProcessed := true, lastChange := 0,
    buttonTime := 0, dutyI := 0, pinL := false, pinD := dutyGet 0 }

/-- One iteration of `loop()`.  Returns the new state and the debounced
transition event committed this tick, if any. -/
def step (s : SwState) (now : Nat) (raw : Bool) : SwState × Option Ev :=
  -- raw button change (prior to debouncing)
  if s.buttonState ≠ raw then
    ({ s with buttonState := !s.buttonState, lastChange := now % W }, none)
  -- software button debounce (do nothing for recent raw button changes)
  else if msub now s.lastChange > debounceDelay then
    -- debounced button change
    if s.buttonProcessed ≠ s.buttonState then
      -- button up (with pullup, up == HIGH)
      if s.buttonState then
        -- load on (when load off - trigger is HIGH)
        if s.pinL then
          ({ s with pinL := false,
                    buttonProcessed := s.buttonState, buttonTime := s.lastChange },
           some ⟨s.buttonState, s.lastChange⟩)
        -- load off (load on and short press)
        else if heldDuration s now < shortLong then
          ({ s with pinL := true,
                    buttonProcessed := s.buttonState, buttonTime := s.lastChange },
           some ⟨s.buttonState, s.lastChange⟩)
        -- change duty (load on and long press)
        else
          ({ s with dutyI := advanceDuty s.dutyI,
                    pinD := dutyGet (advanceDuty s.dutyI),
                    buttonProcessed := s.buttonState, buttonTime := s.lastChange },
           some ⟨s.buttonState, s.lastChange⟩)
      -- button down: just reporting; actions on button up
      else
        ({ s with buttonProcessed := s.buttonState, buttonTime := s.lastChange },
         some ⟨s.buttonState, s.lastChange⟩)
    -- keep (millis() - times) from overflowing
    else if msub now s.buttonTime > 2 * shortLong then
      ({ s with buttonTime := (s.buttonTime + shortLong) % W,
                lastChange := (s.lastChange + shortLong) % W }, none)
    else (s, none)
  else (s, none)

/-- Run the loop over a list of ticks, collecting the emitted events. -/
def run (s : SwState) : List (Nat × Bool) → SwState × List Ev
  | [] => (s, [])
  | (t, r) :: tr =>
    let p := step s t r
    let q := run p.1 tr
    (q.1, p.2.toList ++ q.2)

/-- Observable agreement of two states: equal raw-tracking state, debounced
state, relay latch, duty index and PWM value (everything except the two
internal timestamps). -/
def obsEq (a b : SwState) : Prop :=
  a.buttonState = b.buttonState ∧ a.buttonProcessed = b.buttonProcessed ∧
  a.pinL = b.pinL ∧ a.dutyI = b.dutyI ∧ a.pinD = b.pinD

/-- Coupling relation for the overflow-guard analysis: either the states are
identical, or they agree observably, the debounced state is HIGH (idle), and
whenever a raw change is pending the pending timestamps agree. -/
def Cpl (a b : SwState) : Prop :=
  a = b ∨
    (obsEq a b ∧ a.buttonProcessed = true ∧
      (a.buttonState = true ∨ a.lastChange = b.lastChange))

/-- A trace oscillates faster than the debounce window w.r.t. a start state:
every tick either sees a fresh raw change or falls within `debounceDelay`
of the last raw change. -/
def oscB (s : SwState) : List (Nat × Bool) → Bool
  | [] => true
  | (t, r) :: tr =>
    (r ≠ s.buttonState || msub t s.lastChange ≤ debounceDelay) &&
      oscB (step s t r).1 tr

/-- Strict alternation of event levels starting from an expected level. -/
def altB : Bool → List Ev → Bool
  | _, [] => true
  | b, e :: es => (e.level == b) && altB (!b) es

/-- Sample pending-release state: button raw HIGH since 3100, debounced state
still LOW, the matching press-down recorded at time 3000, load on. -/
def sRel : SwState :=
  { buttonState := true, buttonProcessed := false, lastChange := 3100,
    buttonTime := 3000, dutyI := 0, pinL := false, pinD := 255 }

/-- Sample steady idle state with the load off, long after the last
transition (both timestamps 100). -/
def sIdle : SwState :=
  { buttonState := true, buttonProcessed := true, lastChange := 100,
    buttonTime := 100, dutyI := 0, pinL := true, pinD := 255 }

/-- Short press-and-release: down at 3000 (committed at 3060), up at 3100
(committed at 3160, held duration 160 ms). -/
def trShort : List (Nat × Bool) :=
  [(3000, false), (3060, false), (3100, true), (3160, true)]

/-- A raw change held for exactly `debounceDelay` milliseconds. -/
def trBoundary : List (Nat × Bool) := [(3000, false), (3050, false)]

/-- A press held across the overflow-guard threshold: down at 3000
(committed at 3060), a steady tick at 4051 (guard fires), release raw
change at 4100. -/
def trHeld : List (Nat × Bool) :=
  [(3000, false), (3060, false), (4051, false), (4100, true)]

/-- A press held across the overflow-guard threshold: down at 2000
(committed at 2060), then a steady tick at 3061 on which the guard fires. -/
def trHeld2 : List (Nat × Bool) :=
  [(2000, false), (2060, false), (3061, false)]

/-- Press-and-release after an idle period (used from `sIdle`). -/
def trToggle : List (Nat × Bool) :=
  [(5100, false), (5160, false), (5200, true), (5260, true)]

/-- Raw oscillation faster than the debounce window. -/
def trOsc : List (Nat × Bool) :=
  [(1000, false), (1030, true), (1060, false), (1090, false)]

/-- A single raw change at 2000 followed by a stable hold. -/
def trOnce : List (Nat × Bool) :=
  [(2000, false), (2040, false), (2060, false), (2100, false)]

/-- Two idle button-up ticks long after the last transition; the overflow
guard fires on both (used from `sIdle`). -/
def trIdle : List (Nat × Bool) := [(2000, true), (4000, true)]

/-- Steady held-down state: press-down committed at raw-change time 2000. -/
def sHold : SwState :=
  { buttonState := false, buttonProcessed := false, lastChange := 2000,
    buttonTime := 2000, dutyI := 0, pinL := false, pinD := 255 }

/-- Case lemma: a raw change records the new raw value and the time. -/
theorem step_raw (s : SwState) (now : Nat) (raw : Bool) (h : s.buttonState ≠ raw) :
    step s now raw =
      ({ s with buttonState := !s.buttonState, lastChange := now % W }, none) := by
  simp [step, h]

/-- Case lemma: stable raw sample inside the debounce window does nothing. -/
theorem step_wait (s : SwState) (now : Nat) (raw : Bool) (h : s.buttonState = raw)
    (hw : ¬ msub now s.lastChange > debounceDelay) :
    step s now raw = (s, none) := by
  simp [step, h, hw]

/-- Case lemma: debounced button-down commit. -/
theorem step_commit_down (s : SwState) (now : Nat) (raw : Bool)
    (h : s.buttonState = raw) (hS : s.buttonState = false)
    (hp : s.buttonProcessed = true) (hw : msub now s.lastChange > debounceDelay) :
    step s now raw =
      ({ s with buttonProcessed := false, buttonTime := s.lastChange },
       some ⟨false, s.lastChange⟩) := by
  simp [step, ← h, hS, hp, hw]

/-- Case lemma: debounced release while the load is off turns the load on. -/
theorem step_commit_up_on (s : SwState) (now : Nat) (raw : Bool)
    (h : s.buttonState = raw) (hS : s.buttonState = true)
    (hp : s.buttonProcessed = false) (hw : msub now s.lastChange > debounceDelay)
    (hL : s.pinL = true) :
    step s now raw =
      ({ s with pinL := false, buttonProcessed := true, buttonTime := s.lastChange },
       some ⟨true, s.lastChange⟩) := by
  simp [step, ← h, hS, hp, hw, hL]

/-- Case lemma: debounced short-press release while the load is on turns it off. -/
theorem step_commit_up_short (s : SwState) (now : Nat) (raw : Bool)
    (h : s.buttonState = raw) (hS : s.buttonState = true)
    (hp : s.buttonProcessed = false) (hw : msub now s.lastChange > debounceDelay)
    (hL : s.pinL = false) (hd : heldDuration s now < shortLong) :
    step s now raw =
      ({ s with pinL := true, buttonProcessed := true, buttonTime := s.lastChange },
       some ⟨true, s.lastChange⟩) := by
  simp [step, ← h, hS, hp, hw, hL, hd]

/-- Case lemma: debounced long-press release while the load is on advances the duty. -/
theorem step_commit_up_long (s : SwState) (now : Nat) (raw : Bool)
    (h : s.buttonState = raw) (hS : s.buttonState = true)
    (hp : s.buttonProcessed = false) (hw : msub now s.lastChange > debounceDelay)
    (hL : s.pinL = false) (hd : ¬ heldDuration s now < shortLong) :
    step s now raw =
      ({ s with dutyI := advanceDuty s.dutyI, pinD := dutyGet (advanceDuty s.dutyI),
                buttonProcessed := true, buttonTime := s.lastChange },
       some ⟨true, s.lastChange⟩) := by
  simp [step, ← h, hS, hp, hw, hL, hd]

/-- Case lemma: overflow guard fires in steady state, advancing both times. -/
theorem step_guard (s : SwState) (now : Nat) (raw : Bool)
    (h : s.buttonState = raw) (hp : s.buttonProcessed = s.buttonState)
    (hw : msub now s.lastChange > debounceDelay)
    (hg : msub now s.buttonTime > 2 * shortLong) :
    step s now raw =
      ({ s with buttonTime := (s.buttonTime + shortLong) % W,
                lastChange := (s.lastChange + shortLong) % W }, none) := by
  simp [step, ← h, hp, hw, hg]

/-- Case lemma: steady state with the guard bound unexceeded does nothing. -/
theorem step_idle (s : SwState) (now : Nat) (raw : Bool)
    (h : s.buttonState = raw) (hp : s.buttonProcessed = s.buttonState)
    (hw : msub now s.lastChange > debounceDelay)
    (hg : ¬ msub now s.buttonTime > 2 * shortLong) :
    step s now raw = (s, none) := by
  simp [step, ← h, hp, hw, hg]

theorem obsEq_refl (a : SwState) : obsEq a a := ⟨rfl, rfl, rfl, rfl, rfl⟩

theorem obsEq_symm {a b : SwState} (h : obsEq a b) : obsEq b a := by
  obtain ⟨x1, x2, x3, x4, x5⟩ := h
  exact ⟨x1.symm, x2.symm, x3.symm, x4.symm, x5.symm⟩

theorem obsEq_trans {a b c : SwState} (h : obsEq a b) (h' : obsEq b c) :
    obsEq a c := by
  obtain ⟨x1, x2, x3, x4, x5⟩ := h
  obtain ⟨y1, y2, y3, y4, y5⟩ := h'
  exact ⟨x1.trans y1, x2.trans y2, x3.trans y3, x4.trans y4, x5.trans y5⟩

/-- A stable tick in the steady state emits nothing and leaves every field
except the two timestamps unchanged. -/
theorem step_steady_shape (s : SwState) (now : Nat) (raw : Bool)
    (h : s.buttonState = raw) (hp : s.buttonProcessed = s.buttonState) :
    (step s now raw).2 = none ∧ obsEq (step s now raw).1 s := by
  by_cases hw : msub now s.lastChange > debounceDelay
  · by_cases hg : msub now s.buttonTime > 2 * shortLong
    · rw [step_guard s now raw h hp hw hg]
      exact ⟨rfl, rfl, rfl, rfl, rfl, rfl⟩
    · rw [step_idle s now raw h hp hw hg]
      exact ⟨rfl, rfl, rfl, rfl, rfl, rfl⟩
  · rw [step_wait s now raw h hw]
    exact ⟨rfl, rfl, rfl, rfl, rfl, rfl⟩

/-- A stable steady tick on which the guard bound is not yet exceeded leaves
the state entirely unchanged. -/
theorem step_steady_frozen (s : SwState) (now : Nat) (raw : Bool)
    (h : s.buttonState = raw) (hp : s.buttonProcessed = s.buttonState)
    (hg : ¬ msub now s.buttonTime > 2 * shortLong) :
    step s now raw = (s, none) := by
  by_cases hw : msub now s.lastChange > debounceDelay
  · exact step_idle s now raw h hp hw hg
  · exact step_wait s now raw h hw

/-- Over a whole trace of stable steady ticks within the guard bound, the
state is frozen and nothing is emitted: in particular `buttonTime` keeps the
value recorded at the last debounced transition. -/
theorem run_frozen (tr : List (Nat × Bool)) (s : SwState)
    (hp : s.buttonProcessed = s.buttonState)
    (h : ∀ p ∈ tr, p.2 = s.buttonState ∧ ¬ msub p.1 s.buttonTime > 2 * shortLong) :
    run s tr = (s, []) := by
  induction tr with
  | nil => rfl
  | cons p tr ih =>
    obtain ⟨t, r⟩ := p
    obtain ⟨h1, h2⟩ := h (t, r) (List.mem_cons_self _ _)
    have hstep : step s t r = (s, none) := step_steady_frozen s t r h1.symm hp h2
    simp only [run, hstep, Option.toList_none, List.nil_append]
    exact ih fun q hq => h q (List.mem_cons_of_mem _ hq)

/-- Over a whole trace of stable ticks from a steady state, nothing is
emitted and the observable fields are unchanged (only the guard may move
the timestamps). -/
theorem steady_run_obs (tr : List (Nat × Bool)) (s : SwState)
    (hp : s.buttonProcessed = s.buttonState)
    (h : ∀ p ∈ tr, p.2 = s.buttonState) :
    (run s tr).2 = [] ∧ obsEq (run s tr).1 s := by
  induction tr generalizing s with
  | nil => exact ⟨rfl, obsEq_refl s⟩
  | cons p tr ih =>
    obtain ⟨t, r⟩ := p
    have h1 : s.buttonState = r := (h (t, r) (List.mem_cons_self _ _)).symm
    obtain ⟨hev, hobs⟩ := step_steady_shape s t r h1 hp
    obtain ⟨o1, o2, o3, o4, o5⟩ := hobs
    have hp' : (step s t r).1.buttonProcessed = (step s t r).1.buttonState := by
      rw [o1, o2]; exact hp
    have h' : ∀ q ∈ tr, q.2 = (step s t r).1.buttonState := by
      intro q hq; rw [o1]; exact h q (List.mem_cons_of_mem _ hq)
    obtain ⟨e1, e2⟩ := ih (step s t r).1 hp' h'
    constructor
    · simp only [run, hev, Option.toList_none, List.nil_append]; exact e1
    · simp only [run]
      exact obsEq_trans e2 ⟨o1, o2, o3, o4, o5⟩

/-- Any commit tick (stable raw differing from the debounced state, debounce
window strictly exceeded) emits exactly one event carrying the committed
level and the recorded raw-change time, and copies that time into
`buttonTime`. -/
theorem step_commit_any (s : SwState) (now : Nat) (raw : Bool)
    (h : s.buttonState = raw) (hp : s.buttonProcessed ≠ s.buttonState)
    (hw : msub now s.lastChange > debounceDelay) :
    (step s now raw).2 = some ⟨s.buttonState, s.lastChange⟩ ∧
    (step s now raw).1.buttonState = s.buttonState ∧
    (step s now raw).1.buttonProcessed = s.buttonState ∧
    (step s now raw).1.buttonTime = s.lastChange := by
  cases hS : s.buttonState with
  | false =>
    have hpt : s.buttonProcessed = true := by
      cases hpp : s.buttonProcessed with
      | false => rw [hpp, hS] at hp; exact absurd rfl hp
      | true => rfl
    rw [step_commit_down s now raw h hS hpt hw]
    exact ⟨by rw [hS], by rw [hS], by rw [hS], rfl⟩
  | true =>
    have hpf : s.buttonProcessed = false := by
      cases hpp : s.buttonProcessed with
      | false => rfl
      | true => rw [hpp, hS] at hp; exact absurd rfl hp
    by_cases hL : s.pinL = true
    · rw [step_commit_up_on s now raw h hS hpf hw hL]
      exact ⟨by rw [hS], by rw [hS], by rw [hS], rfl⟩
    · have hL' : s.pinL = false := by simpa using hL
      by_cases hd : heldDuration s now < shortLong
      · rw [step_commit_up_short s now raw h hS hpf hw hL' hd]
        exact ⟨by rw [hS], by rw [hS], by rw [hS], rfl⟩
      · rw [step_commit_up_long s now raw h hS hpf hw hL' hd]
        exact ⟨by rw [hS], by rw [hS], by rw [hS], rfl⟩

/-- A pending debounced change followed by a stable hold commits exactly
once: one event, with the pending level and the recorded raw-change time. -/
theorem pending_commit_run (tr : List (Nat × Bool)) (s : SwState)
    (hp : s.buttonProcessed ≠ s.buttonState)
    (hstable : ∀ p ∈ tr, p.2 = s.buttonState)
    (hlong : ∃ p ∈ tr, msub p.1 s.lastChange > debounceDelay) :
    (run s tr).2 = [⟨s.buttonState, s.lastChange⟩] ∧
    (run s tr).1.buttonProcessed = s.buttonState := by
  induction tr with
  | nil => simp at hlong
  | cons p tr ih =>
    obtain ⟨t, r⟩ := p
    have h1 : s.buttonState = r := (hstable (t, r) (List.mem_cons_self _ _)).symm
    by_cases hw : msub t s.lastChange > debounceDelay
    · obtain ⟨c1, c2, c3, c4⟩ := step_commit_any s t r h1 hp hw
      have hp' : (step s t r).1.buttonProcessed = (step s t r).1.buttonState := by
        rw [c2, c3]
      have h' : ∀ q ∈ tr, q.2 = (step s t r).1.buttonState := by
        intro q hq; rw [c2]; exact hstable q (List.mem_cons_of_mem _ hq)
      obtain ⟨e1, e2⟩ := steady_run_obs tr (step s t r).1 hp' h'
      constructor
      · simp only [run, c1, Option.toList_some, List.singleton_append, e1]
      · simp only [run]
        rw [e2.2.1]; exact c3
    · have hstep : step s t r = (s, none) := step_wait s t r h1 hw
      have hlong' : ∃ p ∈ tr, msub p.1 s.lastChange > debounceDelay := by
        rcases hlong with ⟨q, hq, hql⟩
        rcases List.mem_cons.1 hq with rfl | hq'
        · exact absurd hql hw
        · exact ⟨q, hq', hql⟩
      have hres := ih (fun q hq => hstable q (List.mem_cons_of_mem _ hq)) hlong'
      constructor
      · simp only [run, hstep, Option.toList_none, List.nil_append]
        exact hres.1
      · simp only [run, hstep]
        exact hres.2

/-- A tick that emits no event leaves the debounced state unchanged. -/
theorem step_none_processed (s : SwState) (now : Nat) (raw : Bool)
    (h : (step s now raw).2 = none) :
    (step s now raw).1.buttonProcessed = s.buttonProcessed := by
  unfold step at *
  split_ifs at * <;> simp_all

/-- Shape of any tick that emits an event: it is a commit tick, the event
carries the settled raw level and the recorded raw-change time, and that
time — strictly older than `now` by more than the debounce window — becomes
the new `buttonTime`. -/
theorem step_some_shape (s : SwState) (now : Nat) (raw : Bool) (e : Ev)
    (h : (step s now raw).2 = some e) :
    e.level = s.buttonState ∧ e.time = s.lastChange ∧
    s.buttonProcessed ≠ s.buttonState ∧ s.buttonState = raw ∧
    msub now s.lastChange > debounceDelay ∧
    (step s now raw).1.buttonProcessed = s.buttonState ∧
    (step s now raw).1.buttonState = s.buttonState ∧
    (step s now raw).1.buttonTime = s.lastChange := by
  unfold step at *
  split_ifs at * <;> try simp_all
  all_goals (rw [← h]; exact ⟨rfl, rfl⟩)

/-- Event levels in any run strictly alternate, starting opposite to the
current debounced state. -/
theorem alt_run (tr : List (Nat × Bool)) (s : SwState) :
    altB (!s.buttonProcessed) (run s tr).2 = true := by
  induction tr generalizing s with
  | nil => rfl
  | cons p tr ih =>
    obtain ⟨t, r⟩ := p
    cases hev : (step s t r).2 with
    | none =>
      have hpp := step_none_processed s t r hev
      simp only [run, hev, Option.toList_none, List.nil_append]
      rw [← hpp]
      exact ih (step s t r).1
    | some e =>
      obtain ⟨l1, _, l3, _, _, l6, _, _⟩ := step_some_shape s t r e hev
      have hflip : s.buttonState = !s.buttonProcessed := by
        cases hb : s.buttonProcessed <;> cases hc : s.buttonState <;>
          simp_all
      simp only [run, hev, Option.toList_some, List.singleton_append]
      simp only [altB, Bool.and_eq_true]
      constructor
      · rw [l1, hflip]; simp
      · have := ih (step s t r).1
        rw [l6, hflip] at this
        simpa using this

/-- A raw signal oscillating faster than the debounce window never changes
the debounced state and never emits an event. -/
theorem osc_run (tr : List (Nat × Bool)) (s : SwState) (h : oscB s tr = true) :
    (run s tr).2 = [] ∧ (run s tr).1.buttonProcessed = s.buttonProcessed := by
  induction tr generalizing s with
  | nil => exact ⟨rfl, rfl⟩
  | cons p tr ih =>
    obtain ⟨t, r⟩ := p
    simp only [oscB, Bool.and_eq_true, Bool.or_eq_true, decide_eq_true_eq] at h
    obtain ⟨h1, h2⟩ := h
    by_cases hr : s.buttonState = r
    · have hw : ¬ msub t s.lastChange > debounceDelay := by
        rcases h1 with hx | hx
        · exact absurd hr.symm hx
        · omega
      have hstep : step s t r = (s, none) := step_wait s t r hr hw
      rw [hstep] at h2
      have hres := ih s h2
      constructor
      · simp only [run, hstep, Option.toList_none, List.nil_append]
        exact hres.1
      · simp only [run, hstep]
        exact hres.2
    · have hstep := step_raw s t r hr
      have hres := ih _ h2
      have hpp : (step s t r).1.buttonProcessed = s.buttonProcessed := by
        rw [hstep]
      have hev : (step s t r).2 = none := by rw [hstep]
      constructor
      · simp only [run, hev, Option.toList_none, List.nil_append]
        exact hres.1
      · simp only [run]
        rw [hres.2, hpp]

theorem cpl_obsEq {a b : SwState} (h : Cpl a b) : obsEq a b := by
  rcases h with rfl | ⟨ho, _, _⟩
  · exact obsEq_refl a
  · exact ho

/-- The coupling relation is preserved by a tick with the same input, and
both sides emit the same event. -/
theorem cpl_step {a b : SwState} (t : Nat) (r : Bool) (h : Cpl a b) :
    Cpl (step a t r).1 (step b t r).1 ∧ (step a t r).2 = (step b t r).2 := by
  rcases h with rfl | ⟨⟨hbs, hbp, hpl, hdi, hpd⟩, hpt, hOr⟩
  · exact ⟨Or.inl rfl, rfl⟩
  by_cases hr : a.buttonState = r
  · have hrb : b.buttonState = r := hbs ▸ hr
    cases hS : a.buttonState with
    | true =>
      have hpa : a.buttonProcessed = a.buttonState := by rw [hpt, hS]
      have hpb : b.buttonProcessed = b.buttonState := by
        rw [← hbp, hpt, ← hbs, hS]
      have sha := step_steady_shape a t r hr hpa
      have shb := step_steady_shape b t r hrb hpb
      refine ⟨Or.inr ⟨?_, ?_, Or.inl ?_⟩, by rw [sha.1, shb.1]⟩
      · exact obsEq_trans sha.2
          (obsEq_trans ⟨hbs, hbp, hpl, hdi, hpd⟩ (obsEq_symm shb.2))
      · rw [sha.2.2.1, hpt]
      · rw [sha.2.1, hS]
    | false =>
      have hlc : a.lastChange = b.lastChange := by
        rcases hOr with h1 | h1
        · rw [hS] at h1; exact absurd h1 (by simp)
        · exact h1
      by_cases hw : msub t a.lastChange > debounceDelay
      · have hwb : msub t b.lastChange > debounceDelay := by
          rw [← hlc]; exact hw
        rw [step_commit_down a t r hr hS hpt hw,
            step_commit_down b t r hrb (by rw [← hbs, hS]) (by rw [← hbp, hpt]) hwb]
        constructor
        · left
          obtain ⟨sa1, sa2, sa3, sa4, sa5, sa6, sa7⟩ := a
          obtain ⟨sb1, sb2, sb3, sb4, sb5, sb6, sb7⟩ := b
          simp_all
        · rw [hlc]
      · have hwb : ¬ msub t b.lastChange > debounceDelay := by
          rw [← hlc]; exact hw
        rw [step_wait a t r hr hw, step_wait b t r hrb hwb]
        exact ⟨Or.inr ⟨⟨hbs, hbp, hpl, hdi, hpd⟩, hpt, hOr⟩, rfl⟩
  · have hrb : b.buttonState ≠ r := by rw [← hbs]; exact hr
    rw [step_raw a t r hr, step_raw b t r hrb]
    refine ⟨Or.inr ⟨⟨?_, hbp, hpl, hdi, hpd⟩, hpt, Or.inr rfl⟩, rfl⟩
    simp [hbs]

/-- Coupled states emit identical event sequences and agree observably over
any continuation of the run. -/
theorem cpl_run (tr : List (Nat × Bool)) {a b : SwState} (h : Cpl a b) :
    (run a tr).2 = (run b tr).2 ∧ obsEq (run a tr).1 (run b tr).1 := by
  induction tr generalizing a b with
  | nil => exact ⟨rfl, cpl_obsEq h⟩
  | cons p tr ih =>
    obtain ⟨t, r⟩ := p
    obtain ⟨hc, he⟩ := cpl_step t r h
    obtain ⟨e1, e2⟩ := ih hc
    constructor
    · simp only [run, he, e1]
    · simp only [run]
      exact e2

/-- C1: on a debounced release (raw settled HIGH, debounced state still LOW,
debounce window exceeded) the controller decides in strict priority order on
exactly three outcomes, determined only by the load state and the held
duration `millis() - buttonTime`: if the load is off it turns on regardless
of the held duration, with the duty index untouched; otherwise a held
duration strictly below `shortLong` (500 ms) turns the load off, duty index
untouched; otherwise (held duration at least `shortLong`, the boundary
counting as long) the duty index advances by one and the load stays on. -/
theorem c1_release_three_outcomes (s : SwState) (now : Nat)
    (hS : s.buttonState = true) (hp : s.buttonProcessed = false)
    (hw : msub now s.lastChange > debounceDelay) :
    (s.pinL = true →
      loadOn (step s now true).1 = true ∧ (step s now true).1.dutyI = s.dutyI) ∧
    (s.pinL = false → heldDuration s now < shortLong →
      loadOn (step s now true).1 = false ∧ (step s now true).1.dutyI = s.dutyI) ∧
    (s.pinL = false → shortLong ≤ heldDuration s now →
      loadOn (step s now true).1 = true ∧
      (step s now true).1.dutyI = advanceDuty s.dutyI) := by
  refine ⟨fun hL => ?_, fun hL hd => ?_, fun hL hd => ?_⟩
  · rw [step_commit_up_on s now true hS hS hp hw hL]
    exact ⟨rfl, rfl⟩
  · rw [step_commit_up_short s now true hS hS hp hw hL hd]
    exact ⟨rfl, rfl⟩
  · rw [step_commit_up_long s now true hS hS hp hw hL (by omega)]
    exact ⟨by simp [loadOn, hL], rfl⟩

/-- C1 witness: the boundary case — a release whose held duration is exactly
`shortLong` is classified long: the load stays on and the duty advances. -/
theorem c1_release_three_outcomes_witness :
    (sRel.buttonState = true ∧ sRel.buttonProcessed = false ∧
      msub 3500 sRel.lastChange > debounceDelay ∧ sRel.pinL = false ∧
      heldDuration sRel 3500 = shortLong) ∧
    loadOn (step sRel 3500 true).1 = true ∧
    (step sRel 3500 true).1.dutyI = advanceDuty sRel.dutyI :=
  ⟨by decide,
   (c1_release_three_outcomes sRel 3500 (by decide) (by decide)
      (by decide)).2.2 (by decide) (by decide)⟩

/-- C3 counterexample: a raw change (to LOW at time 3000) that has held for
exactly `debounceDelay` (50 ms) at the tick at time 3050 is NOT committed:
the comparison in the sketch is strict, so no event is emitted and the
debounced state is still HIGH. -/
theorem c3_boundary_counterexample :
    msub 3050 3000 = debounceDelay ∧
    (run init trBoundary).2 = [] ∧
    (run init trBoundary).1.buttonProcessed = true ∧
    (run init trBoundary).1.buttonState = false := by decide

/-- C3 amended: on a tick whose raw sample equals the tracked raw value but
differs from the debounced state, the transition is committed if and only if
STRICTLY more than `debounceDelay` (50 ms) has elapsed since the last raw
change; a change held exactly 50 ms is not yet committed (it commits on the
next tick once 50 ms are strictly exceeded). -/
theorem c3_commit_iff_strict (s : SwState) (now : Nat) (raw : Bool)
    (h : s.buttonState = raw) (hp : s.buttonProcessed ≠ s.buttonState) :
    ((step s now raw).2 ≠ none ↔ msub now s.lastChange > debounceDelay) ∧
    ((step s now raw).1.buttonProcessed = s.buttonState ↔
      msub now s.lastChange > debounceDelay) := by
  by_cases hw : msub now s.lastChange > debounceDelay
  · obtain ⟨c1, c2, c3, c4⟩ := step_commit_any s now raw h hp hw
    constructor
    · exact ⟨fun _ => hw, fun _ => by rw [c1]; simp⟩
    · exact ⟨fun _ => hw, fun _ => c3⟩
  · rw [step_wait s now raw h hw]
    constructor
    · simp [hw]
    · simp only [iff_iff_implies_and_implies]
      exact ⟨fun hc => absurd hc hp, fun hc => absurd hc hw⟩

/-- C3 witness: at 51 ms since the raw change the commit does happen. -/
theorem c3_commit_iff_strict_witness :
    (sRel.buttonState = true ∧ sRel.buttonProcessed ≠ sRel.buttonState ∧
      msub 3151 sRel.lastChange > debounceDelay) ∧
    (step sRel 3151 true).2 ≠ none :=
  ⟨by decide,
   (c3_commit_iff_strict sRel 3151 true rfl (by decide)).1.mpr (by decide)⟩

/-- C2 counterexample: from the post-`setup` state, press at 3000 and
release at 3100; at the commit at 3160 this short press turns the load off
(the relay trigger goes HIGH) — yet the PWM output is still 255, not
zero/disabled: this sketch never writes the PWM pin on a release that turns
the load off (nor on one that turns it on). -/
theorem c2_pwm_counterexample :
    (run init trShort).2 = [⟨false, 3000⟩, ⟨true, 3100⟩] ∧
    (run init trShort).1.pinL = true ∧
    (run init trShort).1.pinD = 255 ∧ (run init trShort).1.pinD ≠ 0 := by
  decide

/-- C2 amended: the PWM output always equals `duty[dutyI]` — it is
initialised to `duty[0]` and rewritten only together with `dutyI` on a long
press — so a release that turns the load on leaves the PWM output already at
`duty[dutyI]` without writing it, and a release that turns the load off
leaves the PWM output unchanged (not driven to zero): the load is cut by the
relay trigger going HIGH, not by the PWM pin. -/
theorem c2_pwm_invariant :
    init.pinD = dutyGet init.dutyI ∧
    (∀ s now raw, s.pinD = dutyGet s.dutyI →
      (step s now raw).1.pinD = dutyGet (step s now raw).1.dutyI) ∧
    (∀ s now, s.buttonState = true → s.buttonProcessed = false →
      msub now s.lastChange > debounceDelay → s.pinL = false →
      heldDuration s now < shortLong →
      (step s now true).1.pinD = s.pinD ∧ (step s now true).1.pinL = true) ∧
    (∀ s now, s.buttonState = true → s.buttonProcessed = false →
      msub now s.lastChange > debounceDelay → s.pinL = true →
      (step s now true).1.pinD = s.pinD ∧ (step s now true).1.pinL = false) := by
  refine ⟨rfl, fun s now raw hinv => ?_, fun s now hS hp hw hL hd => ?_,
         fun s now hS hp hw hL => ?_⟩
  · unfold step
    split_ifs <;> simp_all
  · rw [step_commit_up_short s now true hS hS hp hw hL hd]
    exact ⟨rfl, rfl⟩
  · rw [step_commit_up_on s now true hS hS hp hw hL]
    exact ⟨rfl, rfl⟩

/-- C2 witness: the short-press release at 3160 (held 160 ms) leaves the PWM
value untouched while switching the relay off. -/
theorem c2_pwm_invariant_witness :
    (sRel.buttonState = true ∧ sRel.buttonProcessed = false ∧
      msub 3160 sRel.lastChange > debounceDelay ∧ sRel.pinL = false ∧
      heldDuration sRel 3160 < shortLong) ∧
    (step sRel 3160 true).1.pinD = sRel.pinD ∧
    (step sRel 3160 true).1.pinL = true :=
  ⟨by decide,
   c2_pwm_invariant.2.2.1 sRel 3160 rfl rfl (by decide) rfl (by decide)⟩

/-- C9 counterexample: at process start the load is ON, not off: the relay
trigger pin resets LOW and `setup()` never writes it, so the normally-closed
relay path leaves the load connected (`setup()` prints "Load is on at 255
duty."). -/
theorem c9_initial_counterexample :
    loadOn init = true ∧ ¬ loadOn init = false := by decide

/-- C9 amended: at process start, before any button event is processed, the
load is ON (hardware-default relay latch LOW), `DutyIndex = 0`, both
timestamps equal the start time 0, raw and debounced button state are HIGH,
and the PWM output is the first duty level. -/
theorem c9_initial_state :
    loadOn init = true ∧ init.dutyI = 0 ∧ init.lastChange = 0 ∧
    init.buttonTime = 0 ∧ init.buttonState = true ∧
    init.buttonProcessed = true ∧ init.pinD = dutyGet 0 := by decide

/-- C7: for every tick sequence that oscillates faster than the debounce
window (each tick either sees a fresh raw change or lies within 50 ms of the
last raw change), the debounced state never changes and no transition event
is ever emitted. -/
theorem c7_oscillation_suppressed (tr : List (Nat × Bool)) (s : SwState)
    (h : oscB s tr = true) :
    (run s tr).2 = [] ∧ (run s tr).1.buttonProcessed = s.buttonProcessed :=
  osc_run tr s h

/-- C7 witness: a concrete raw oscillation with changes 30 ms apart produces
no event and leaves the debounced state HIGH. -/
theorem c7_oscillation_suppressed_witness :
    oscB init trOsc = true ∧
    (run init trOsc).2 = [] ∧
    (run init trOsc).1.buttonProcessed = init.buttonProcessed :=
  ⟨by decide,
   (c7_oscillation_suppressed trOsc init (by decide)).1,
   (c7_oscillation_suppressed trOsc init (by decide)).2⟩

/-- C6: `dutyI` is mutated by exactly one kind of event — a debounced
long-press release while the load is on, where it advances by exactly one
modulo `dutyS` and the load stays on; every other tick leaves it unchanged;
it stays within `[0, dutyS)`; and `dutyS` successive advances return it to
its starting value with every intermediate value distinct from its
predecessor (no entry skipped, none repeated in place). -/
theorem c6_duty_cycle :
    (∀ s now raw, (step s now raw).1.dutyI = s.dutyI ∨
      ((step s now raw).1.dutyI = advanceDuty s.dutyI ∧
        s.buttonState = true ∧ s.buttonProcessed = false ∧ s.pinL = false ∧
        shortLong ≤ heldDuration s now ∧ loadOn (step s now raw).1 = true)) ∧
    (∀ s now raw, s.dutyI < dutyS → (step s now raw).1.dutyI < dutyS) ∧
    (∀ i, i < dutyS →
      advanceDuty (advanceDuty (advanceDuty (advanceDuty i))) = i ∧
      advanceDuty i ≠ i) := by
  refine ⟨fun s now raw => ?_, fun s now raw hlt => ?_, fun i hi => ?_⟩
  · unfold step
    split_ifs with h1 h2 h3 h4 h5 h6 <;>
      first
        | exact Or.inl rfl
        | (refine Or.inr ⟨rfl, h4, ?_, ?_, ?_, ?_⟩ <;> simp_all [loadOn])
  · unfold step
    split_ifs <;> (simp_all [advanceDuty, dutyS]; try omega)
  · unfold advanceDuty dutyS at *
    omega

/-- C6 witness: a long release (held 600 ms) advances the duty index from 0
to 1 with the load still on, and four advances return any index below
`dutyS` to itself. -/
theorem c6_duty_cycle_witness :
    (sRel.dutyI < dutyS ∧ (step sRel 3600 true).1.dutyI < dutyS) ∧
    (0 < dutyS ∧
      advanceDuty (advanceDuty (advanceDuty (advanceDuty 0))) = 0) :=
  ⟨⟨by decide, c6_duty_cycle.2.1 sRel 3600 true (by decide)⟩,
   ⟨by decide, (c6_duty_cycle.2.2 0 (by decide)).1⟩⟩

/-- C8: a raw signal that changes level exactly once (a tick at `t0` showing
the opposite of the settled level) and then holds the new level stably on
every later tick, at least one of which lies strictly past the debounce
window, produces exactly one debounced transition event over the whole run;
its kind matches the new level and its timestamp is the raw-change time. -/
theorem c8_single_transition (s : SwState) (t0 : Nat) (r : Bool)
    (tr : List (Nat × Bool))
    (hsteady : s.buttonProcessed = s.buttonState) (hr : r = !s.buttonState)
    (hstable : ∀ p ∈ tr, p.2 = r)
    (hpast : ∃ p ∈ tr, msub p.1 (t0 % W) > debounceDelay) :
    (run s ((t0, r) :: tr)).2 = [⟨r, t0 % W⟩] ∧
    (run s ((t0, r) :: tr)).1.buttonProcessed = r := by
  have hne : s.buttonState ≠ r := by
    rw [hr]; cases s.buttonState <;> simp
  have hstep := step_raw s t0 r hne
  have hev : (step s t0 r).2 = none := by rw [hstep]
  have hbs1 : (step s t0 r).1.buttonState = r := by
    rw [hstep]; exact hr.symm
  have hlc1 : (step s t0 r).1.lastChange = t0 % W := by rw [hstep]
  have hp1 : (step s t0 r).1.buttonProcessed ≠ (step s t0 r).1.buttonState := by
    rw [hstep]
    show s.buttonProcessed ≠ !s.buttonState
    rw [hsteady]
    cases s.buttonState <;> simp
  have hstable1 : ∀ p ∈ tr, p.2 = (step s t0 r).1.buttonState := by
    intro p hp; rw [hbs1]; exact hstable p hp
  have hpast1 : ∃ p ∈ tr, msub p.1 (step s t0 r).1.lastChange > debounceDelay := by
    rw [hlc1]; exact hpast
  obtain ⟨e1, e2⟩ := pending_commit_run tr (step s t0 r).1 hp1 hstable1 hpast1
  rw [hbs1, hlc1] at e1
  rw [hbs1] at e2
  constructor
  · simp only [run, hev, Option.toList_none, List.nil_append]
    exact e1
  · simp only [run]
    exact e2

/-- C8 witness: the single change to LOW at 2000, held through ticks at
2040, 2060 and 2100, yields exactly the one event `falling` at time 2000. -/
theorem c8_single_transition_witness :
    (init.buttonProcessed = init.buttonState ∧ (false = !init.buttonState) ∧
      (∀ p ∈ [(2040, false), (2060, false), (2100, false)], p.2 = false) ∧
      (∃ p ∈ [(2040, false), (2060, false), (2100, false)],
        msub p.1 (2000 % W) > debounceDelay)) ∧
    (run init trOnce).2 = [⟨false, 2000 % W⟩] ∧
    (run init trOnce).1.buttonProcessed = false :=
  ⟨⟨rfl, by decide, by decide, by decide⟩,
   (c8_single_transition init 2000 false
      [(2040, false), (2060, false), (2100, false)] rfl (by decide)
      (by decide) (by decide)).1,
   (c8_single_transition init 2000 false
      [(2040, false), (2060, false), (2100, false)] rfl (by decide)
      (by decide) (by decide)).2⟩

/-- C4 counterexample: press at 3000 (committed at 3060), hold past the
guard threshold (the steady tick at 4051 advances `buttonTime` to 3500),
release raw change at 4100, commit tick at 4160.  The only previous
confirmed transition is the press-down at 3000, yet the duration the
release classification actually compares against `shortLong` is
`msub 4160 buttonTime = 660` — not the 1160 ms between this release's
handling and the moment the button went down (nor the 1100 ms between the
two raw changes).  The release still classifies long (the duty advances). -/
theorem c4_held_duration_counterexample :
    (run init trHeld).2 = [⟨false, 3000⟩] ∧
    (run init trHeld).1.buttonTime = 3500 ∧
    heldDuration (run init trHeld).1 4160 = 660 ∧
    msub 4160 3000 = 1160 ∧ (660 : Nat) ≠ 1160 ∧
    (step (run init trHeld).1 4160 true).2 = some ⟨true, 4100⟩ ∧
    (step (run init trHeld).1 4160 true).1.dutyI = 1 := by decide

/-- C4 amended: every emitted transition carries as its timestamp the time
of the last raw change (copied into `buttonTime`), recorded strictly more
than the debounce window before the confirmation instant — never the
confirmation time; and the release classification compares
`msub now buttonTime` against `shortLong`, where `buttonTime` still equals
the matching press-down's raw-change time provided the hold stayed within
`2 * shortLong` of it (beyond that the overflow guard advances it by
multiples of `shortLong`, as the counterexample shows). -/
theorem c4_timestamp_discipline :
    (∀ s now raw e, (step s now raw).2 = some e →
      e.time = s.lastChange ∧ (step s now raw).1.buttonTime = s.lastChange ∧
      msub now s.lastChange > debounceDelay) ∧
    (∀ s tr, s.buttonProcessed = s.buttonState →
      (∀ p ∈ tr, p.2 = s.buttonState ∧ ¬ msub p.1 s.buttonTime > 2 * shortLong) →
      (run s tr).1.buttonTime = s.buttonTime) ∧
    (∀ s now, s.buttonState = true → s.buttonProcessed = false →
      msub now s.lastChange > debounceDelay → s.pinL = false →
      (loadOn (step s now true).1 = false ↔ heldDuration s now < shortLong)) := by
  refine ⟨fun s now raw e he => ?_, fun s tr hp h => ?_,
         fun s now hS hp hw hL => ?_⟩
  · obtain ⟨_, l2, _, _, l5, _, _, l8⟩ := step_some_shape s now raw e he
    exact ⟨l2, l8, l5⟩
  · rw [run_frozen tr s hp h]
  · by_cases hd : heldDuration s now < shortLong
    · rw [step_commit_up_short s now true hS hS hp hw hL hd]
      simp [loadOn, hd]
    · rw [step_commit_up_long s now true hS hS hp hw hL hd]
      simp [loadOn, hL, hd]

/-- C4 witness: the release commit at 3160 emits the event with timestamp
3100 — the raw-change instant, 60 ms before the confirmation. -/
theorem c4_timestamp_discipline_witness :
    (step sRel 3160 true).2 = some ⟨true, 3100⟩ ∧
    ((⟨true, 3100⟩ : Ev).time = sRel.lastChange ∧
      (step sRel 3160 true).1.buttonTime = sRel.lastChange ∧
      msub 3160 sRel.lastChange > debounceDelay) :=
  ⟨by decide,
   c4_timestamp_discipline.1 sRel 3160 true ⟨true, 3100⟩ (by decide)⟩

/-- C5: an idle period with the button released (raw HIGH on every tick,
however long, including arbitrarily many firings of the overflow guard that
advances `buttonTime` and `lastChange` by `shortLong`) emits no transition
at all, and any subsequent input — e.g. the first real press-and-release —
produces exactly the same transition events and the same observable outputs
(debounced state, relay latch, duty index, PWM) as if the idle period had
never happened: no missed, duplicated or spurious transition, and no change
to how the next press is classified. -/
theorem c5_guard_idle_harmless (s : SwState) (idle tr : List (Nat × Bool))
    (hup : s.buttonState = true) (hsteady : s.buttonProcessed = true)
    (hidle : ∀ p ∈ idle, p.2 = true) :
    (run s idle).2 = [] ∧
    (run (run s idle).1 tr).2 = (run s tr).2 ∧
    obsEq (run (run s idle).1 tr).1 (run s tr).1 := by
  have hp : s.buttonProcessed = s.buttonState := by rw [hsteady, hup]
  have hstable : ∀ p ∈ idle, p.2 = s.buttonState := by
    intro p hp'; rw [hup]; exact hidle p hp'
  obtain ⟨e1, e2⟩ := steady_run_obs idle s hp hstable
  have hcpl : Cpl (run s idle).1 s :=
    Or.inr ⟨e2, by rw [e2.2.1, hsteady], Or.inl (by rw [e2.1, hup])⟩
  obtain ⟨f1, f2⟩ := cpl_run tr hcpl
  exact ⟨e1, f1, f2⟩

/-- C5 witness: from `sIdle` the two idle ticks fire the guard twice (times
advance from 100 to 1100); the following press-and-release still emits
down-then-up and turns the load on, exactly as without the idle period. -/
theorem c5_guard_idle_harmless_witness :
    (sIdle.buttonState = true ∧ sIdle.buttonProcessed = true ∧
      (∀ p ∈ trIdle, p.2 = true) ∧
      (run sIdle trIdle).1.buttonTime = 1100) ∧
    (run sIdle trIdle).2 = [] ∧
    (run (run sIdle trIdle).1 trToggle).2 = (run sIdle trToggle).2 ∧
    obsEq (run (run sIdle trIdle).1 trToggle).1 (run sIdle trToggle).1 :=
  ⟨by decide,
   (c5_guard_idle_harmless sIdle trIdle trToggle rfl rfl (by decide)).1,
   (c5_guard_idle_harmless sIdle trIdle trToggle rfl rfl (by decide)).2.1,
   (c5_guard_idle_harmless sIdle trIdle trToggle rfl rfl (by decide)).2.2⟩

/-- C10 counterexample: press at 2000 (committed at 2060), then a steady
held tick at 3061 on which the guard advances `buttonTime` to 2500.  The
debounced state is LOW — the next commit would be the release — and the only
previous confirmed transition is the press-down with timestamp 2000, yet
`buttonTime`, the value the release classification will use, is 2500. -/
theorem c10_buttontime_counterexample :
    (run init trHeld2).2 = [⟨false, 2000⟩] ∧
    (run init trHeld2).1.buttonProcessed = false ∧
    (run init trHeld2).1.buttonTime = 2500 ∧ (2500 : Nat) ≠ 2000 := by decide

/-- C10 amended: debounced transitions strictly alternate — every run's
event levels alternate starting opposite to the current debounced state, so
two consecutive releases (or presses) are impossible, and a release event is
only ever emitted from debounced state LOW (the previous confirmed
transition is the matching press-down); `buttonTime` at the release equals
that press-down's raw-change timestamp whenever the hold stayed within
`2 * shortLong` of it (the whole state is frozen during such a hold), while
longer holds let the overflow guard advance it by multiples of `shortLong`. -/
theorem c10_alternation :
    (∀ s tr, altB (!s.buttonProcessed) (run s tr).2 = true) ∧
    (∀ s now raw e, (step s now raw).2 = some e → e.level = true →
      s.buttonProcessed = false) ∧
    (∀ s tr, s.buttonProcessed = s.buttonState →
      (∀ p ∈ tr, p.2 = s.buttonState ∧ ¬ msub p.1 s.buttonTime > 2 * shortLong) →
      run s tr = (s, [])) := by
  refine ⟨fun s tr => alt_run tr s, fun s now raw e he hl => ?_,
         fun s tr hp h => run_frozen tr s hp h⟩
  obtain ⟨l1, _, l3, _, _, _, _, _⟩ := step_some_shape s now raw e he
  rw [hl] at l1
  cases hpp : s.buttonProcessed with
  | false => rfl
  | true => rw [hpp, ← l1] at l3; exact absurd rfl l3

/-- C10 witness: during a bounded hold (tick at 2500, within 1000 ms of the
press-down at 2000) the state is frozen, so `buttonTime` is still the
press-down's raw-change time; and a release commit can only come from
debounced state LOW. -/
theorem c10_alternation_witness :
    (sHold.buttonProcessed = sHold.buttonState ∧
      (∀ p ∈ [((2500 : Nat), false)], p.2 = sHold.buttonState ∧
        ¬ msub p.1 sHold.buttonTime > 2 * shortLong)) ∧
    run sHold [(2500, false)] = (sHold, []) ∧
    ((step sRel 3170 true).2 = some ⟨true, 3100⟩ ∧ sRel.buttonProcessed = false) :=
  ⟨⟨rfl, by decide⟩,
   c10_alternation.2.2 sHold [(2500, false)] rfl (by decide),
   ⟨by decide, c10_alternation.2.1 sRel 3170 true ⟨true, 3100⟩ (by decide) rfl⟩⟩
